import Mathlib

/-!
Verification of the neuro-integration-sdk Go package (`package neuro`).

The embedding below translates the client code of the SDK into Lean:

* `Message` mirrors the Go `Message` struct (command, game, data).
* JSON payloads (`map[string]interface{}` marshalled with `json.Marshal`)
  are modelled as association lists of string keys to a small value type
  `JValue`; the opaque `json.RawMessage` of an incoming action is modelled
  as an optional payload.
* The websocket connection is modelled by an oracle `wOk : Message → Bool`
  telling whether `conn.WriteMessage` succeeds for a given frame, together
  with the list of frames actually handed to `WriteMessage` (the "write
  attempts").  The result of `conn.Close()` is likewise an oracle Bool.
* `Client` carries the fields of the Go `Client` struct that the
  verified operations read or write: the configured game name, the
  `connected` and `closed` flags, whether a connection handle is stored
  (`conn != nil`), and the action registry.  The Go registry is a
  `map[string]ActionHandler`; it is modelled as an association list with
  unique keys (`registryInsert` erases the old binding, `registryLookup`
  finds the binding).
* Handler `Validate`/`Execute` calls and transport writes performed by the
  invocation pipeline `handleAction` are recorded in a trace of `Event`s,
  in the order the Go code performs them.
-/

namespace Neuro

/-- JSON schema for action parameters (`ActionSchema` in the source).
`Properties` is `map[string]interface{}` in Go and is never inspected by
the engine; its opaque values are abstracted as strings. -/
structure ActionSchema where
  jsonType : String
  properties : List (String × String)
  required : List String
deriving DecidableEq

/-- An action advertised to the peer (`ActionDefinition` in the source). -/
structure ActionDefinition where
  name : String
  description : String
  schema : Option ActionSchema
deriving DecidableEq

/-- Values appearing in outbound JSON payloads.  The engine only ever
marshals strings, booleans, string lists and action-definition lists. -/
inductive JValue where
  | str (s : String)
  | bool (b : Bool)
  | strList (xs : List String)
  | defList (xs : List ActionDefinition)
deriving DecidableEq

/-- A JSON object payload, as the ordered association list of its keys. -/
abbrev Payload := List (String × JValue)

/-- Field access in a payload (JSON object key lookup). -/
def payloadLookup (p : Payload) (key : String) : Option JValue :=
  (p.find? (fun kv => kv.1 = key)).map (fun kv => kv.2)

/-- The wire envelope (`Message` in the source): command, game, data. -/
structure Message where
  command : String
  game : String
  data : Option Payload
deriving DecidableEq

/-- An action invocation received from the peer (`IncomingAction`). -/
structure IncomingAction where
  id : String
  name : String
  data : Option Payload
deriving DecidableEq

/-- Result of validating an action (`ExecutionResult`). -/
structure ExecutionResult where
  successful : Bool
  message : String
deriving DecidableEq

/-- `NewSuccessResult` from the source. -/
def NewSuccessResult (message : String) : ExecutionResult :=
  { successful := true, message := message }

/-- `NewFailureResult` from the source. -/
def NewFailureResult (message : String) : ExecutionResult :=
  { successful := false, message := message }

/-- `type Priority string` with the four exported constants. -/
abbrev Priority := String

def PriorityLow : Priority := "low"
def PriorityMedium : Priority := "medium"
def PriorityHigh : Priority := "high"
def PriorityCritical : Priority := "critical"

/-- The `ActionHandler` interface.  `σ` is the type of the opaque state
value (`interface{}` in Go) passed from `Validate` to `Execute`; the body
of `Execute` is side effects only, so the model records `Execute` calls in
the event trace instead of giving the handler an execute field. -/
structure ActionHandler (σ : Type) where
  getName : String
  getDescription : String
  getSchema : Option ActionSchema
  validate : Option Payload → σ × ExecutionResult

/-- The fields of the Go `Client` struct used by the verified operations.
`game` is `config.Game`; `hasConn` is whether `c.conn != nil`. -/
structure Client (σ : Type) where
  game : String
  connected : Bool
  closed : Bool
  hasConn : Bool
  actions : List (String × ActionHandler σ)

/-- Registry lookup `c.actions[name]`. -/
def registryLookup {σ : Type} (acts : List (String × ActionHandler σ))
    (name : String) : Option (ActionHandler σ) :=
  (acts.find? (fun kv => kv.1 = name)).map (fun kv => kv.2)

/-- Registry insertion `c.actions[name] = h` (Go map assignment: the old
binding for the key, if any, is replaced). -/
def registryInsert {σ : Type} (acts : List (String × ActionHandler σ))
    (name : String) (h : ActionHandler σ) : List (String × ActionHandler σ) :=
  (name, h) :: acts.filter (fun kv => kv.1 ≠ name)

/-- The `send` method.  Returns the list of frames handed to
`conn.WriteMessage` (empty or a singleton) and the call's result.
Marshalling of the modelled payloads cannot fail, so the `json.Marshal`
error branch is unreachable and omitted. -/
def send {σ : Type} (wOk : Message → Bool) (c : Client σ) (msg : Message) :
    List Message × Except String Unit :=
  if !c.connected then
    ([], .error "not connected")
  else
    let m := { msg with game := c.game }
    if wOk m then ([m], .ok ()) else ([m], .error "failed to send message")

/-- `Startup` sends the initial startup message. -/
def Startup {σ : Type} (wOk : Message → Bool) (c : Client σ) :
    List Message × Except String Unit :=
  send wOk c { command := "startup", game := "", data := none }

/-- Payload of a `context` message. -/
def contextPayload (message : String) (silent : Bool) : Payload :=
  [("message", .str message), ("silent", .bool silent)]

/-- `SendContext` sends a context message. -/
def SendContext {σ : Type} (wOk : Message → Bool) (c : Client σ)
    (message : String) (silent : Bool) : List Message × Except String Unit :=
  send wOk c { command := "context", game := "", data := some (contextPayload message silent) }

/-- `SendShutdownReady` notifies the peer of shutdown readiness. -/
def SendShutdownReady {σ : Type} (wOk : Message → Bool) (c : Client σ) :
    List Message × Except String Unit :=
  send wOk c { command := "shutdown/ready", game := "", data := none }

/-- Payload of an `action/result` message. -/
def actionResultPayload (id : String) (success : Bool) (message : String) : Payload :=
  [("id", .str id), ("success", .bool success), ("message", .str message)]

/-- `SendActionResult` reports the outcome of an invocation. -/
def SendActionResult {σ : Type} (wOk : Message → Bool) (c : Client σ)
    (id : String) (success : Bool) (message : String) :
    List Message × Except String Unit :=
  send wOk c
    { command := "action/result", game := ""
      data := some (actionResultPayload id success message) }

/-- The `action/result` frame as it appears on the wire after `send` has
stamped the configured game name onto it. -/
def actionResultWire (game id : String) (success : Bool) (message : String) : Message :=
  { command := "action/result", game := game
    data := some (actionResultPayload id success message) }

/-- Observable steps of the invocation pipeline, in program order:
a call to a handler's `Validate`, a frame handed to the transport,
a call to a handler's `Execute` with its validated state. -/
inductive Event (σ : Type) where
  | validateCall (name : String) (data : Option Payload)
  | write (m : Message)
  | executeCall (name : String) (st : σ)
deriving DecidableEq

def Event.isValidate {σ : Type} : Event σ → Bool
  | .validateCall _ _ => true
  | _ => false

def Event.isWrite {σ : Type} : Event σ → Bool
  | .write _ => true
  | _ => false

def Event.isExecute {σ : Type} : Event σ → Bool
  | .executeCall _ _ => true
  | _ => false

/-- The invocation pipeline `handleAction`, as the trace of events it
performs.  Mirrors the source: registry lookup; on a miss, send a failure
result "Unknown action: {name}" and stop; on a hit, call `Validate`, send
the result (a send failure is only logged), and call `Execute` with the
validated state exactly when the result is successful. -/
def handleAction {σ : Type} (wOk : Message → Bool) (c : Client σ)
    (action : IncomingAction) : List (Event σ) :=
  match registryLookup c.actions action.name with
  | none =>
      (SendActionResult wOk c action.id false
        ("Unknown action: " ++ action.name)).1.map Event.write
  | some handler =>
      let vr := handler.validate action.data
      Event.validateCall action.name action.data ::
        (SendActionResult wOk c action.id vr.2.successful vr.2.message).1.map Event.write ++
        (if vr.2.successful then [Event.executeCall action.name vr.1] else [])

/-- The `ActionDefinition` built from a handler inside `RegisterActions`. -/
def mkDefinition {σ : Type} (h : ActionHandler σ) : ActionDefinition :=
  { name := h.getName, description := h.getDescription, schema := h.getSchema }

/-- The registration loop body of `RegisterActions`: walks the handler
list, failing on the first empty name with the registry as mutated so far
(Go mutates `c.actions` in place before the check of later handlers can
fail), otherwise inserting each handler and accumulating its
`ActionDefinition`.  The Bool is `true` when no empty name was hit. -/
def registerLoop {σ : Type} :
    List (String × ActionHandler σ) → List ActionDefinition →
    List (ActionHandler σ) →
    List (String × ActionHandler σ) × List ActionDefinition × Bool
  | acts, defs, [] => (acts, defs, true)
  | acts, defs, h :: rest =>
      if h.getName = "" then (acts, defs, false)
      else
        registerLoop (registryInsert acts h.getName h)
          (defs ++ [mkDefinition h]) rest

/-- Inserting a whole handler list into a registry, in order (the effect
of the successful part of the registration loop on the registry). -/
def insertAllHandlers {σ : Type} (acts : List (String × ActionHandler σ))
    (hs : List (ActionHandler σ)) : List (String × ActionHandler σ) :=
  hs.foldl (fun a h => registryInsert a h.getName h) acts

/-- The `actions/register` envelope for a definition batch, before `send`
stamps the game name. -/
def registerMessage (defs : List ActionDefinition) : Message :=
  { command := "actions/register", game := ""
    data := some [("actions", .defList defs)] }

/-- `RegisterActions`: no-op success on an empty list; otherwise insert
each handler (failing with "action name cannot be empty" on the first
empty name, with earlier handlers already inserted and nothing sent), and
send one `actions/register` frame with all definitions.  Returns the
updated client, the write attempts, and the result. -/
def RegisterActions {σ : Type} (wOk : Message → Bool) (c : Client σ)
    (handlers : List (ActionHandler σ)) :
    Client σ × List Message × Except String Unit :=
  if handlers.isEmpty then (c, [], .ok ())
  else
    match registerLoop c.actions [] handlers with
    | (acts, _, false) =>
        ({ c with actions := acts }, [], .error "action name cannot be empty")
    | (acts, defs, true) =>
        let c' := { c with actions := acts }
        let sr := send wOk c' (registerMessage defs)
        (c', sr.1, sr.2)

/-- `RegisterAction` registers a single handler. -/
def RegisterAction {σ : Type} (wOk : Message → Bool) (c : Client σ)
    (handler : ActionHandler σ) : Client σ × List Message × Except String Unit :=
  RegisterActions wOk c [handler]

/-- `UnregisterActions`: no-op success on an empty list; otherwise delete
each name from the registry (missing names ignored) and send one
`actions/unregister` frame with the name list. -/
def UnregisterActions {σ : Type} (wOk : Message → Bool) (c : Client σ)
    (names : List String) : Client σ × List Message × Except String Unit :=
  if names.isEmpty then (c, [], .ok ())
  else
    let acts := names.foldl
      (fun a n => a.filter (fun kv => kv.1 ≠ n)) c.actions
    let c' := { c with actions := acts }
    let sr := send wOk c'
      { command := "actions/unregister", game := ""
        data := some [("action_names", .strList names)] }
    (c', sr.1, sr.2)

/-- `resendRegisteredActions` (the `actions/reregister_all` handler):
collect the registry's handlers and, only when there is at least one,
re-register them (errors are only logged).  Returns the updated client and
the write attempts. -/
def resendRegisteredActions {σ : Type} (wOk : Message → Bool) (c : Client σ) :
    Client σ × List Message :=
  let handlers := c.actions.map (fun kv => kv.2)
  if handlers.length > 0 then
    let r := RegisterActions wOk c handlers
    (r.1, r.2.1)
  else (c, [])

/-- The option-pattern configuration of `ForceActions` (`forceConfig`). -/
structure forceConfig where
  state : String
  ephemeralContext : Bool
  priority : Priority
deriving DecidableEq

/-- The three exported `ForceOption` constructors (`WithState`,
`WithEphemeralContext`, `WithPriority`). -/
inductive ForceOption where
  | withState (s : String)
  | withEphemeralContext (b : Bool)
  | withPriority (p : Priority)
deriving DecidableEq

/-- Applying one option closure to the configuration. -/
def applyOption (cfg : forceConfig) : ForceOption → forceConfig
  | .withState s => { cfg with state := s }
  | .withEphemeralContext b => { cfg with ephemeralContext := b }
  | .withPriority p => { cfg with priority := p }

/-- The initial configuration built in `ForceActions` before options run:
priority low, ephemeral context false, state unset (Go zero value ""). -/
def defaultForceConfig : forceConfig :=
  { state := "", ephemeralContext := false, priority := PriorityLow }

/-- The `actions/force` payload: query, action names, ephemeral-context
flag and priority always present; `state` present only when set. -/
def forcePayload (query : String) (actionNames : List String)
    (cfg : forceConfig) : Payload :=
  [("query", .str query), ("action_names", .strList actionNames),
   ("ephemeral_context", .bool cfg.ephemeralContext),
   ("priority", .str cfg.priority)] ++
  (if cfg.state ≠ "" then [("state", .str cfg.state)] else [])

/-- `ForceActions`: fails when the name list is empty, otherwise folds the
options over the default configuration and sends one `actions/force`
frame. -/
def ForceActions {σ : Type} (wOk : Message → Bool) (c : Client σ)
    (query : String) (actionNames : List String) (opts : List ForceOption) :
    List Message × Except String Unit :=
  if actionNames.isEmpty then
    ([], .error "must specify at least one action name")
  else
    let cfg := opts.foldl applyOption defaultForceConfig
    send wOk c
      { command := "actions/force", game := ""
        data := some (forcePayload query actionNames cfg) }

/-- `Close`: a second call returns success immediately; otherwise mark the
client closed (the `closeChan` signal is subsumed by the `closed` flag)
and, when a connection handle is stored, return the transport handle's
close result, modelled by the oracle `connCloseOk`.  `Close` hands no
frame to `WriteMessage` and never resets the `connected` flag. -/
def Close {σ : Type} (connCloseOk : Bool) (c : Client σ) :
    Client σ × Except String Unit :=
  if c.closed then (c, .ok ())
  else
    let c' := { c with closed := true }
    if c.hasConn then
      (c', if connCloseOk then .ok () else .error "transport close failed")
    else (c', .ok ())

/-- The `ActionWindow` struct: owning client, ordered handler list, force
options and query, and the registered flag. -/
structure ActionWindow (σ : Type) where
  client : Client σ
  actions : List (ActionHandler σ)
  forceOpts : List ForceOption
  query : String
  registered : Bool

/-- `NewActionWindow` builds an empty window over a client. -/
def NewActionWindow {σ : Type} (c : Client σ) : ActionWindow σ :=
  { client := c, actions := [], forceOpts := [], query := "", registered := false }

/-- `AddAction`: appends a handler while building; on a registered window
it only logs and leaves the window unchanged. -/
def ActionWindow.AddAction {σ : Type} (w : ActionWindow σ)
    (handler : ActionHandler σ) : ActionWindow σ :=
  if w.registered then w
  else { w with actions := w.actions ++ [handler] }

/-- `SetForce`: replaces the query and options while building; on a
registered window it only logs and leaves the window unchanged. -/
def ActionWindow.SetForce {σ : Type} (w : ActionWindow σ) (query : String)
    (opts : List ForceOption) : ActionWindow σ :=
  if w.registered then w
  else { w with query := query, forceOpts := opts }

/-- `ActionWindow.Register`: error when already registered; error when the
handler list is empty; otherwise set `registered` (before calling into the
client), register the handlers — propagating a failure wrapped as
"failed to register actions: …" — and on success schedule the delayed
`ForceActions` goroutine, returned here as the scheduled force's
(query, names, options) triple.  Returns the updated window, the write
attempts, the scheduled force if any, and the result. -/
def ActionWindow.Register {σ : Type} (wOk : Message → Bool)
    (w : ActionWindow σ) :
    ActionWindow σ × List Message ×
      Option (String × List String × List ForceOption) × Except String Unit :=
  if w.registered then (w, [], none, .error "window already registered")
  else if w.actions.isEmpty then (w, [], none, .error "no actions in window")
  else
    let w' := { w with registered := true }
    match RegisterActions wOk w.client w.actions with
    | (c', ws, .error e) =>
        ({ w' with client := c' }, ws, none,
          .error ("failed to register actions: " ++ e))
    | (c', ws, .ok _) =>
        let names := w.actions.map (fun a => a.getName)
        ({ w' with client := c' }, ws, some (w.query, names, w.forceOpts), .ok ())

/-- `ActionWindow.End`: no-op when never registered, otherwise unregister
the window's action names. -/
def ActionWindow.End {σ : Type} (wOk : Message → Bool) (w : ActionWindow σ) :
    ActionWindow σ × List Message × Except String Unit :=
  if !w.registered then (w, [], .ok ())
  else
    let names := w.actions.map (fun a => a.getName)
    let r := UnregisterActions wOk w.client names
    ({ w with client := r.1 }, r.2.1, r.2.2)

/-!  Concrete fixtures for the closed instance theorems below: a
transport accepting every write, one rejecting every write, two handlers
over `Nat` state, and small clients and windows built from them. -/

/-- A transport oracle on which every `WriteMessage` succeeds. -/
def wAll : Message → Bool := fun _ => true

/-- A transport oracle on which every `WriteMessage` fails. -/
def wNone : Message → Bool := fun _ => false

/-- A handler whose validation always succeeds with state `7`. -/
def pingHandler : ActionHandler Nat :=
  { getName := "ping", getDescription := "replies", getSchema := none
    validate := fun _ => (7, NewSuccessResult "pong") }

/-- A handler whose validation always fails. -/
def rejectHandler : ActionHandler Nat :=
  { getName := "reject", getDescription := "always fails", getSchema := none
    validate := fun _ => (0, NewFailureResult "nope") }

/-- A connected client for game "T" with the two handlers registered. -/
def clientT : Client Nat :=
  { game := "T", connected := true, closed := false, hasConn := true
    actions := [("ping", pingHandler), ("reject", rejectHandler)] }

/-- A connected client for game "T" with an empty registry. -/
def clientEmpty : Client Nat :=
  { game := "T", connected := true, closed := false, hasConn := true
    actions := [] }

/-- A client that was constructed but never connected. -/
def clientUnconnected : Client Nat :=
  { game := "T", connected := false, closed := false, hasConn := false
    actions := [] }

/-- The peer invoking the registered "ping" action. -/
def pingInvocation : IncomingAction := { id := "1", name := "ping", data := none }

/-- The peer invoking the registered always-failing action. -/
def rejectInvocation : IncomingAction := { id := "3", name := "reject", data := none }

/-- The peer invoking a name that is not in the registry. -/
def unknownInvocation : IncomingAction := { id := "2", name := "mystery", data := none }

/-- A `Nat`-state handler named "a" (used in registration scenarios). -/
def namedA : ActionHandler Nat :=
  { getName := "a", getDescription := "da", getSchema := none
    validate := fun _ => (1, NewSuccessResult "ok") }

/-- A `Nat`-state handler named "b". -/
def namedB : ActionHandler Nat :=
  { getName := "b", getDescription := "db", getSchema := none
    validate := fun _ => (2, NewSuccessResult "ok") }

/-- A handler with an empty name (rejected by `RegisterActions`). -/
def emptyNamed : ActionHandler Nat :=
  { getName := "", getDescription := "anonymous", getSchema := none
    validate := fun _ => (0, NewFailureResult "no") }

/-- A building window over an unconnected client holding one handler, so
that the inner `RegisterActions` of `Register` fails at the send step. -/
def windowUnconnected : ActionWindow Nat :=
  { client := clientUnconnected, actions := [namedA], forceOpts := []
    query := "q", registered := false }

/-!  Helper lemmas about the send path and the registry. -/

/-- The frames `send` hands to the transport: none when not connected,
exactly the game-stamped envelope otherwise (whether or not the write
succeeds). -/
theorem send_writes {σ : Type} (wOk : Message → Bool) (c : Client σ)
    (msg : Message) :
    (send wOk c msg).1 =
      if c.connected then [{ msg with game := c.game }] else [] := by
  unfold send
  cases hc : c.connected with
  | false => simp [hc]
  | true =>
      simp only [hc, Bool.not_true, Bool.false_eq_true, if_false, if_true]
      split <;> rfl

/-- The frames `SendActionResult` hands to the transport. -/
theorem sendActionResult_writes {σ : Type} (wOk : Message → Bool)
    (c : Client σ) (id : String) (success : Bool) (message : String) :
    (SendActionResult wOk c id success message).1 =
      if c.connected then [actionResultWire c.game id success message] else [] := by
  unfold SendActionResult actionResultWire
  rw [send_writes]

/-- `find?` ignores a filter that removes only elements the predicate
could not have selected. -/
theorem find?_filter_of_imp {α : Type} (l : List α) (p q : α → Bool)
    (himp : ∀ x, p x = true → q x = true) :
    (l.filter q).find? p = l.find? p := by
  induction l with
  | nil => rfl
  | cons a t ih =>
      by_cases hq : q a = true
      · rw [List.filter_cons_of_pos hq]
        cases hp : p a with
        | true => rw [List.find?_cons_of_pos _ hp, List.find?_cons_of_pos _ hp]
        | false => rw [List.find?_cons_of_neg _ (by simp [hp]),
            List.find?_cons_of_neg _ (by simp [hp]), ih]
      · rw [List.filter_cons_of_neg hq]
        have hp : p a = false := by
          cases hpa : p a with
          | false => rfl
          | true => exact absurd (himp a hpa) hq
        rw [List.find?_cons_of_neg _ (by simp [hp]), ih]

/-- Looking up the key just inserted returns the new handler. -/
theorem registryLookup_insert_self {σ : Type}
    (acts : List (String × ActionHandler σ)) (n : String) (h : ActionHandler σ) :
    registryLookup (registryInsert acts n h) n = some h := by
  simp [registryLookup, registryInsert, List.find?_cons_of_pos]

/-- Looking up a different key is unaffected by an insertion. -/
theorem registryLookup_insert_ne {σ : Type}
    (acts : List (String × ActionHandler σ)) (n m : String)
    (h : ActionHandler σ) (hne : m ≠ n) :
    registryLookup (registryInsert acts n h) m = registryLookup acts m := by
  unfold registryLookup registryInsert
  rw [List.find?_cons_of_neg _ (by simp only [decide_eq_true_eq]; exact Ne.symm hne)]
  rw [find?_filter_of_imp]
  intro x hx
  simp only [decide_eq_true_eq] at hx
  simp [hx, hne]

/-- Inserting a handler list does not disturb keys outside its names. -/
theorem registryLookup_insertAll_not_mem {σ : Type}
    (hs : List (ActionHandler σ)) :
    ∀ (acts : List (String × ActionHandler σ)) (n : String),
      n ∉ hs.map (fun h => h.getName) →
      registryLookup (insertAllHandlers acts hs) n = registryLookup acts n := by
  induction hs with
  | nil => intro acts n _; rfl
  | cons h t ih =>
      intro acts n hn
      rw [List.map_cons, List.mem_cons] at hn
      push_neg at hn
      show registryLookup (insertAllHandlers (registryInsert acts h.getName h) t) n = _
      rw [ih _ _ hn.2, registryLookup_insert_ne _ _ _ _ hn.1]

/-- With pairwise-distinct non-clashing names, inserting a handler list
makes every member retrievable under its own name. -/
theorem registryLookup_insertAll_mem {σ : Type} (hs : List (ActionHandler σ)) :
    ∀ (acts : List (String × ActionHandler σ)) (h : ActionHandler σ),
      (hs.map (fun g => g.getName)).Nodup → h ∈ hs →
      registryLookup (insertAllHandlers acts hs) h.getName = some h := by
  induction hs with
  | nil => intro acts h _ hmem; exact absurd hmem (List.not_mem_nil h)
  | cons g t ih =>
      intro acts h hnd hmem
      rw [List.map_cons, List.nodup_cons] at hnd
      rcases List.mem_cons.mp hmem with rfl | hmem'
      · show registryLookup (insertAllHandlers (registryInsert acts h.getName h) t) _ = _
        rw [registryLookup_insertAll_not_mem t _ _ hnd.1]
        exact registryLookup_insert_self _ _ _
      · exact ih _ _ hnd.2 hmem'

/-- The registration loop on a list of well-named handlers: inserts them
all and accumulates all their definitions, reporting success. -/
theorem registerLoop_ok {σ : Type} (hs : List (ActionHandler σ)) :
    ∀ (acts : List (String × ActionHandler σ)) (defs : List ActionDefinition),
      (∀ h ∈ hs, h.getName ≠ "") →
      registerLoop acts defs hs =
        (insertAllHandlers acts hs, defs ++ hs.map mkDefinition, true) := by
  induction hs with
  | nil => intro acts defs _; simp [registerLoop, insertAllHandlers]
  | cons h t ih =>
      intro acts defs hne
      have h1 : ¬(h.getName = "") := hne h (List.mem_cons_self h t)
      rw [show registerLoop acts defs (h :: t) =
        registerLoop (registryInsert acts h.getName h) (defs ++ [mkDefinition h]) t
        from by simp [registerLoop, h1]]
      rw [ih _ _ (fun g hg => hne g (List.mem_cons_of_mem h hg))]
      simp [insertAllHandlers]

/-- The registration loop on a list whose first empty name follows the
prefix `good`: inserts exactly the prefix and reports failure. -/
theorem registerLoop_break {σ : Type} (good : List (ActionHandler σ))
    (b : ActionHandler σ) (rest : List (ActionHandler σ))
    (hg : ∀ g ∈ good, g.getName ≠ "") (hb : b.getName = "") :
    ∀ (acts : List (String × ActionHandler σ)) (defs : List ActionDefinition),
      registerLoop acts defs (good ++ b :: rest) =
        (insertAllHandlers acts good, defs ++ good.map mkDefinition, false) := by
  induction good with
  | nil => intro acts defs; simp [registerLoop, hb, insertAllHandlers]
  | cons g t ih =>
      intro acts defs
      have h1 : ¬(g.getName = "") := hg g (List.mem_cons_self g t)
      rw [List.cons_append]
      rw [show registerLoop acts defs (g :: (t ++ b :: rest)) =
        registerLoop (registryInsert acts g.getName g) (defs ++ [mkDefinition g]) (t ++ b :: rest)
        from by simp [registerLoop, h1]]
      rw [ih (fun x hx => hg x (List.mem_cons_of_mem g hx)) _ _]
      simp [insertAllHandlers]

/-- `RegisterActions` on a non-empty list of well-named handlers: the
registry receives every handler and one `actions/register` envelope with
all the definitions goes to `send`. -/
theorem registerActions_ok {σ : Type} (wOk : Message → Bool) (c : Client σ)
    (hs : List (ActionHandler σ)) (hne : ∀ h ∈ hs, h.getName ≠ "")
    (h0 : hs ≠ []) :
    RegisterActions wOk c hs =
      ({ c with actions := insertAllHandlers c.actions hs },
       (send wOk { c with actions := insertAllHandlers c.actions hs }
         (registerMessage (hs.map mkDefinition))).1,
       (send wOk { c with actions := insertAllHandlers c.actions hs }
         (registerMessage (hs.map mkDefinition))).2) := by
  cases hs with
  | nil => exact absurd rfl h0
  | cons g t =>
      unfold RegisterActions
      rw [registerLoop_ok (g :: t) _ _ hne]
      simp

/-- `RegisterActions` on a list whose first empty-named handler follows
the well-named prefix `good`: the error is returned, nothing is sent, and
the registry holds exactly the prefix insertions. -/
theorem registerActions_break {σ : Type} (wOk : Message → Bool) (c : Client σ)
    (good : List (ActionHandler σ)) (b : ActionHandler σ)
    (rest : List (ActionHandler σ))
    (hg : ∀ g ∈ good, g.getName ≠ "") (hb : b.getName = "") :
    RegisterActions wOk c (good ++ b :: rest) =
      ({ c with actions := insertAllHandlers c.actions good }, [],
        .error "action name cannot be empty") := by
  unfold RegisterActions
  rw [registerLoop_break good b rest hg hb]
  cases good <;> simp

/-- C6, counterexample: the claim quantifies over every handler list
containing at least one non-empty-named handler.  The list
`[emptyNamed, namedA]` contains the non-empty-named `namedA`, yet
`RegisterActions` aborts on the empty-named first handler before
inserting anything, so looking up `namedA`'s name afterwards does not
return `namedA` — the claim is false at this input. -/
theorem c6_counterexample :
    namedA ∈ ([emptyNamed, namedA] : List (ActionHandler Nat)) ∧
    namedA.getName ≠ "" ∧
    registryLookup (RegisterActions wAll clientEmpty [emptyNamed, namedA]).1.actions
        namedA.getName ≠ some namedA := by
  refine ⟨List.mem_cons_of_mem _ (List.mem_cons_self _ _), by decide, ?_⟩
  have hmain := registerActions_break wAll clientEmpty [] emptyNamed [namedA]
    (fun g hg => absurd hg (List.not_mem_nil g)) rfl
  rw [List.nil_append] at hmain
  rw [hmain]
  simp [registryLookup, insertAllHandlers, clientEmpty]

/-- C6 (amended): for every handler list H in which every handler has a
non-empty name and the handler names are pairwise distinct, after
`RegisterActions H` returns (whether or not the send succeeds), a registry
lookup of each handler's name in H returns that same handler. -/
theorem c6_register_lookup_amended {σ : Type} (wOk : Message → Bool)
    (c : Client σ) (H : List (ActionHandler σ)) (h : ActionHandler σ)
    (hne : ∀ g ∈ H, g.getName ≠ "")
    (hnd : (H.map (fun g => g.getName)).Nodup)
    (hmem : h ∈ H) :
    registryLookup (RegisterActions wOk c H).1.actions h.getName = some h := by
  have h0 : H ≠ [] := by rintro rfl; exact absurd hmem (List.not_mem_nil h)
  rw [registerActions_ok wOk c H hne h0]
  exact registryLookup_insertAll_mem H c.actions h hnd hmem

/-- C6, witness: registering `[namedA, namedB]` makes `namedA`
retrievable under its own name. -/
theorem c6_register_lookup_amended_witness :
    registryLookup (RegisterActions wAll clientEmpty [namedA, namedB]).1.actions
        namedA.getName = some namedA :=
  c6_register_lookup_amended wAll clientEmpty [namedA, namedB] namedA
    (fun g hg => by
      rcases List.mem_cons.mp hg with rfl | hg'
      · decide
      · rcases List.mem_cons.mp hg' with rfl | hg''
        · decide
        · exact absurd hg'' (List.not_mem_nil g))
    (by decide)
    (List.mem_cons_self _ _)

/-- C9: if the first empty-named handler of the list sits after the
well-named prefix `good`, `RegisterActions` returns the "action name
cannot be empty" error, sends no `actions/register` envelope, leaves
every prefix handler inserted under its name (partial insertion, no
rollback), and leaves every name outside the prefix untouched — in
particular the handlers at and after the empty-named one are not
inserted. -/
theorem c9_partial_insertion {σ : Type} (wOk : Message → Bool)
    (c : Client σ) (good : List (ActionHandler σ)) (b : ActionHandler σ)
    (rest : List (ActionHandler σ))
    (hg : ∀ g ∈ good, g.getName ≠ "") (hb : b.getName = "") :
    RegisterActions wOk c (good ++ b :: rest) =
      ({ c with actions := insertAllHandlers c.actions good }, [],
        .error "action name cannot be empty") ∧
    ((good.map (fun g => g.getName)).Nodup → ∀ g ∈ good,
      registryLookup (RegisterActions wOk c (good ++ b :: rest)).1.actions
        g.getName = some g) ∧
    (∀ n, n ∉ good.map (fun g => g.getName) →
      registryLookup (RegisterActions wOk c (good ++ b :: rest)).1.actions n =
        registryLookup c.actions n) := by
  have hmain := registerActions_break wOk c good b rest hg hb
  refine ⟨hmain, ?_, ?_⟩
  · intro hnd g hgmem
    rw [hmain]
    exact registryLookup_insertAll_mem good c.actions g hnd hgmem
  · intro n hn
    rw [hmain]
    exact registryLookup_insertAll_not_mem good c.actions n hn

/-- C9, witness: registering `[namedA, emptyNamed, namedB]` fails and
sends nothing, `namedA` stays registered, and `namedB`'s name "b" is
still absent. -/
theorem c9_partial_insertion_witness :
    RegisterActions wAll clientEmpty ([namedA] ++ emptyNamed :: [namedB]) =
      ({ clientEmpty with
          actions := insertAllHandlers clientEmpty.actions [namedA] }, [],
        .error "action name cannot be empty") ∧
    registryLookup
        (RegisterActions wAll clientEmpty ([namedA] ++ emptyNamed :: [namedB])).1.actions
        namedA.getName = some namedA ∧
    registryLookup
        (RegisterActions wAll clientEmpty ([namedA] ++ emptyNamed :: [namedB])).1.actions
        "b" = registryLookup clientEmpty.actions "b" := by
  have h := c9_partial_insertion wAll clientEmpty [namedA] emptyNamed [namedB]
    (fun g hg => by
      rcases List.mem_cons.mp hg with rfl | hg'
      · decide
      · exact absurd hg' (List.not_mem_nil g))
    rfl
  exact ⟨h.1, h.2.1 (by decide) namedA (List.mem_cons_self _ _),
    h.2.2 "b" (by decide)⟩

/-- C10: when the registry is empty, the `actions/reregister_all` handler
sends no `actions/register` envelope at all and leaves the client
unchanged. -/
theorem c10_resend_skips_empty_registry {σ : Type} (wOk : Message → Bool)
    (c : Client σ) (h : c.actions = []) :
    resendRegisteredActions wOk c = (c, []) := by
  simp [resendRegisteredActions, h]

/-- C10, witness: the empty-registry client re-registers nothing. -/
theorem c10_resend_skips_empty_registry_witness :
    resendRegisteredActions wAll clientEmpty = (clientEmpty, []) :=
  c10_resend_skips_empty_registry wAll clientEmpty rfl

/-- C1: for an incoming action whose name is registered, the pipeline
calls the handler's `Validate` exactly once; every frame it hands to the
transport is the `action/result` frame for this invocation's id; when
connected it hands exactly that one frame over, and (on success) strictly
before the `Execute` call; `Execute` is called exactly once with the state
`Validate` returned if and only if the result is successful — and this
holds for every write oracle `wOk` and also when disconnected, so a failed
send of the result does not suppress `Execute`. -/
theorem c1_invocation_pipeline {σ : Type} (wOk : Message → Bool)
    (c : Client σ) (a : IncomingAction) (h : ActionHandler σ) (st : σ)
    (res : ExecutionResult)
    (hl : registryLookup c.actions a.name = some h)
    (hv : h.validate a.data = (st, res)) :
    (handleAction wOk c a).filter (fun e => e.isValidate) =
      [Event.validateCall a.name a.data] ∧
    (handleAction wOk c a).filter (fun e => e.isExecute) =
      (if res.successful then [Event.executeCall a.name st] else []) ∧
    (res.successful = true → Event.executeCall a.name st ∈ handleAction wOk c a) ∧
    (∀ m, Event.write m ∈ handleAction wOk c a →
       m = actionResultWire c.game a.id res.successful res.message) ∧
    (c.connected = true →
       (handleAction wOk c a).filter (fun e => e.isWrite) =
         [Event.write (actionResultWire c.game a.id res.successful res.message)]) ∧
    (c.connected = true → res.successful = true →
       List.Sublist
         [Event.write (actionResultWire c.game a.id res.successful res.message),
          Event.executeCall a.name st]
         (handleAction wOk c a)) := by
  have htrace : handleAction wOk c a =
      Event.validateCall a.name a.data ::
        ((if c.connected then
            [actionResultWire c.game a.id res.successful res.message]
          else []).map Event.write ++
         (if res.successful then [Event.executeCall a.name st] else [])) := by
    simp only [handleAction, hl, sendActionResult_writes, hv]
    exact List.cons_append _ _ _
  rw [htrace]
  cases hc : c.connected <;> cases hsc : res.successful <;>
    simp_all [Event.isValidate, Event.isExecute, Event.isWrite]

/-- C1, witness: on the connected client `clientT`, invoking the
registered "ping" action records one `Validate` call, executes with the
validated state 7, and the success `action/result` frame precedes the
`Execute` call in the trace. -/
theorem c1_invocation_pipeline_witness :
    (handleAction wAll clientT pingInvocation).filter (fun e => e.isValidate) =
      [Event.validateCall "ping" none] ∧
    Event.executeCall "ping" 7 ∈ handleAction wAll clientT pingInvocation ∧
    List.Sublist
      [Event.write (actionResultWire "T" "1" true "pong"),
       Event.executeCall "ping" 7]
      (handleAction wAll clientT pingInvocation) := by
  have h := c1_invocation_pipeline wAll clientT pingInvocation pingHandler 7
    (NewSuccessResult "pong") rfl rfl
  exact ⟨h.1, h.2.2.1 rfl, h.2.2.2.2.2 rfl rfl⟩

/-- C2: for an incoming action whose name is not in the registry, the
pipeline never calls any handler's `Execute` (or `Validate`), and when
connected it hands the transport exactly one failure `action/result`
frame whose message is "Unknown action: " followed by the name. -/
theorem c2_unknown_action {σ : Type} (wOk : Message → Bool) (c : Client σ)
    (a : IncomingAction)
    (hl : registryLookup c.actions a.name = none) :
    (∀ (n : String) (st : σ), Event.executeCall n st ∉ handleAction wOk c a) ∧
    (∀ (n : String) (d : Option Payload),
      Event.validateCall n d ∉ handleAction wOk c a) ∧
    (c.connected = true →
      handleAction wOk c a =
        [Event.write
          (actionResultWire c.game a.id false ("Unknown action: " ++ a.name))]) := by
  have htrace : handleAction wOk c a =
      (if c.connected then
        [actionResultWire c.game a.id false ("Unknown action: " ++ a.name)]
       else []).map Event.write := by
    simp only [handleAction, hl, sendActionResult_writes]
  rw [htrace]
  cases hc : c.connected <;> simp

/-- C2, witness: invoking the unregistered name "mystery" on `clientT`
yields exactly the failure result frame and no `Execute` call. -/
theorem c2_unknown_action_witness :
    Event.executeCall "ping" 7 ∉ handleAction wAll clientT unknownInvocation ∧
    handleAction wAll clientT unknownInvocation =
      [Event.write (actionResultWire "T" "2" false "Unknown action: mystery")] := by
  have h := c2_unknown_action wAll clientT unknownInvocation rfl
  exact ⟨h.1 "ping" 7, h.2.2 rfl⟩

/-- Folding options containing no `withState` leaves `state` unchanged. -/
theorem foldl_applyOption_state (opts : List ForceOption) :
    ∀ cfg : forceConfig, (∀ s, ForceOption.withState s ∉ opts) →
      (opts.foldl applyOption cfg).state = cfg.state := by
  induction opts with
  | nil => intro cfg _; rfl
  | cons o t ih =>
      intro cfg hno
      rw [List.foldl_cons,
        ih _ (fun s hs => hno s (List.mem_cons_of_mem o hs))]
      cases o with
      | withState s => exact absurd (List.mem_cons_self _ _) (hno s)
      | withEphemeralContext b => rfl
      | withPriority p => rfl

/-- Folding options containing no `withEphemeralContext` leaves the
ephemeral-context flag unchanged. -/
theorem foldl_applyOption_ephemeral (opts : List ForceOption) :
    ∀ cfg : forceConfig, (∀ b, ForceOption.withEphemeralContext b ∉ opts) →
      (opts.foldl applyOption cfg).ephemeralContext = cfg.ephemeralContext := by
  induction opts with
  | nil => intro cfg _; rfl
  | cons o t ih =>
      intro cfg hno
      rw [List.foldl_cons,
        ih _ (fun b hb => hno b (List.mem_cons_of_mem o hb))]
      cases o with
      | withState s => rfl
      | withEphemeralContext b => exact absurd (List.mem_cons_self _ _) (hno b)
      | withPriority p => rfl

/-- Folding options containing no `withPriority` leaves `priority`
unchanged. -/
theorem foldl_applyOption_priority (opts : List ForceOption) :
    ∀ cfg : forceConfig, (∀ p, ForceOption.withPriority p ∉ opts) →
      (opts.foldl applyOption cfg).priority = cfg.priority := by
  induction opts with
  | nil => intro cfg _; rfl
  | cons o t ih =>
      intro cfg hno
      rw [List.foldl_cons,
        ih _ (fun p hp => hno p (List.mem_cons_of_mem o hp))]
      cases o with
      | withState s => rfl
      | withEphemeralContext b => rfl
      | withPriority p => exact absurd (List.mem_cons_self _ _) (hno p)

/-- C5: `ForceActions` fails with the validation error on every empty
name list (for all queries, options and clients); for every non-empty
list on a connected client it hands the transport exactly one
`actions/force` envelope whose payload carries the query, the name list,
the ephemeral-context flag (false unless an option set it), the priority
("low" unless an option set it), and omits the "state" key when state is
unset. -/
theorem c5_force_payload {σ : Type} (wOk : Message → Bool) (c : Client σ)
    (query : String) (names : List String) (opts : List ForceOption)
    (cfg : forceConfig)
    (hcfg : cfg = opts.foldl applyOption defaultForceConfig) :
    ForceActions wOk c query [] opts =
      ([], .error "must specify at least one action name") ∧
    (names ≠ [] → c.connected = true →
      (ForceActions wOk c query names opts).1 =
        [{ command := "actions/force", game := c.game
           data := some (forcePayload query names cfg) }]) ∧
    payloadLookup (forcePayload query names cfg) "query" =
      some (.str query) ∧
    payloadLookup (forcePayload query names cfg) "action_names" =
      some (.strList names) ∧
    payloadLookup (forcePayload query names cfg) "ephemeral_context" =
      some (.bool cfg.ephemeralContext) ∧
    payloadLookup (forcePayload query names cfg) "priority" =
      some (.str cfg.priority) ∧
    (cfg.state = "" →
      payloadLookup (forcePayload query names cfg) "state" = none) ∧
    ((∀ b, ForceOption.withEphemeralContext b ∉ opts) →
      cfg.ephemeralContext = false) ∧
    ((∀ p, ForceOption.withPriority p ∉ opts) → cfg.priority = PriorityLow) ∧
    ((∀ s, ForceOption.withState s ∉ opts) → cfg.state = "") := by
  refine ⟨by simp [ForceActions], ?_, ?_, ?_, ?_, ?_, ?_, ?_, ?_, ?_⟩
  · intro h1 h2
    cases names with
    | nil => exact absurd rfl h1
    | cons n ns =>
        unfold ForceActions
        simp only [List.isEmpty_cons, if_false, Bool.false_eq_true]
        rw [send_writes]
        simp [h2, hcfg]
  · by_cases hst : cfg.state = "" <;>
      simp [forcePayload, payloadLookup, hst, List.find?]
  · by_cases hst : cfg.state = "" <;>
      simp [forcePayload, payloadLookup, hst, List.find?]
  · by_cases hst : cfg.state = "" <;>
      simp [forcePayload, payloadLookup, hst, List.find?]
  · by_cases hst : cfg.state = "" <;>
      simp [forcePayload, payloadLookup, hst, List.find?]
  · intro hst; simp [forcePayload, payloadLookup, hst, List.find?]
  · intro hnb; rw [hcfg]; exact foldl_applyOption_ephemeral opts _ hnb
  · intro hnp; rw [hcfg]; exact foldl_applyOption_priority opts _ hnp
  · intro hns; rw [hcfg]; exact foldl_applyOption_state opts _ hns

/-- C5, witness: the end-to-end scenario — forcing "choose" over
["a","b"] with high priority and ephemeral context yields exactly one
`actions/force` envelope with those fields and no "state" key. -/
theorem c5_force_payload_witness :
    (ForceActions wAll clientEmpty "choose" ["a", "b"]
      [ForceOption.withPriority PriorityHigh,
       ForceOption.withEphemeralContext true]).1 =
      [{ command := "actions/force", game := "T"
         data := some (forcePayload "choose" ["a", "b"]
           ([ForceOption.withPriority PriorityHigh,
             ForceOption.withEphemeralContext true].foldl applyOption
               defaultForceConfig)) }] ∧
    payloadLookup (forcePayload "choose" ["a", "b"]
      ([ForceOption.withPriority PriorityHigh,
        ForceOption.withEphemeralContext true].foldl applyOption
          defaultForceConfig)) "ephemeral_context" = some (.bool true) ∧
    payloadLookup (forcePayload "choose" ["a", "b"]
      ([ForceOption.withPriority PriorityHigh,
        ForceOption.withEphemeralContext true].foldl applyOption
          defaultForceConfig)) "priority" = some (.str "high") ∧
    payloadLookup (forcePayload "choose" ["a", "b"]
      ([ForceOption.withPriority PriorityHigh,
        ForceOption.withEphemeralContext true].foldl applyOption
          defaultForceConfig)) "state" = none := by
  have h := c5_force_payload wAll clientEmpty "choose" ["a", "b"]
    [ForceOption.withPriority PriorityHigh,
     ForceOption.withEphemeralContext true] _ rfl
  exact ⟨h.2.1 (by simp) rfl, h.2.2.2.2.1, h.2.2.2.2.2.1, h.2.2.2.2.2.2.1 rfl⟩

/-- C7: every frame `send` hands to the transport carries the configured
game name in its game field, regardless of the game value the envelope
held before the send path ran; all outbound operations funnel through
`send`. -/
theorem c7_game_always_stamped {σ : Type} (wOk : Message → Bool)
    (c : Client σ) (msg m : Message) (hm : m ∈ (send wOk c msg).1) :
    m.game = c.game := by
  rw [send_writes] at hm
  cases hc : c.connected <;> rw [hc] at hm <;> simp at hm
  rw [hm]

/-- C7, witness: a context envelope carrying a stale game value "stale"
goes out stamped with the configured game "T". -/
theorem c7_game_always_stamped_witness :
    ({ command := "context", game := "T", data := none } : Message).game =
      clientT.game :=
  c7_game_always_stamped wAll clientT
    { command := "context", game := "stale", data := none }
    { command := "context", game := "T", data := none } (by decide)

/-- C8: `Close` is idempotent — the second call is a no-op returning
success (same state, no transport interaction; `Close` hands nothing to
`WriteMessage` by construction), and the first call also returns success
whenever the transport handle's own close succeeds. -/
theorem c8_close_idempotent {σ : Type} (ok1 ok2 : Bool) (c : Client σ) :
    Close ok2 (Close ok1 c).1 = ((Close ok1 c).1, .ok ()) ∧
    (ok1 = true → (Close ok1 c).2 = .ok ()) := by
  unfold Close
  cases hcl : c.closed <;> cases hh : c.hasConn <;> cases ok1 <;>
    simp [hcl, hh]

/-- C8, witness: closing `clientT` twice returns success both times and
the second call changes nothing. -/
theorem c8_close_idempotent_witness :
    Close true (Close true clientT).1 = ((Close true clientT).1, .ok ()) ∧
    (Close true clientT).2 = .ok () := by
  have h := c8_close_idempotent true true clientT
  exact ⟨h.1, h.2 rfl⟩

/-- C3, counterexample: `Close` marks the client closed but never clears
the `connected` flag, and `send` only checks `connected` — so on a client
that was connected and is then closed, `SendContext` still hands a frame
to the released transport handle, and the resulting failure is the
transport write error, not a state error.  The claim is false at this
input. -/
theorem c3_counterexample :
    (Close true clientT).1.closed = true ∧
    (SendContext wNone (Close true clientT).1 "m" false).1 ≠ [] ∧
    (SendContext wNone (Close true clientT).1 "m" false).2 =
      .error "failed to send message" := by
  refine ⟨rfl, by decide, rfl⟩

/-- C3 (amended): after `Close`, a send-style operation fails with the
"not connected" state error and performs no write only when the client
never connected; `Close` leaves the `connected` flag set, so on a
previously connected client every send-style operation still hands its
game-stamped frame to the released transport handle. -/
theorem c3_sends_after_close_amended {σ : Type} (wOk : Message → Bool)
    (c : Client σ) (msg : Message) (m : String) (sil : Bool)
    (id rm : String) (su : Bool) (q n : String) (ns : List String)
    (opts : List ForceOption) (g : ActionHandler σ)
    (hs : List (ActionHandler σ)) (hgn : ∀ x ∈ g :: hs, x.getName ≠ "")
    (hcl : c.closed = true) :
    (c.connected = false →
      send wOk c msg = ([], .error "not connected") ∧
      SendContext wOk c m sil = ([], .error "not connected") ∧
      Startup wOk c = ([], .error "not connected") ∧
      SendShutdownReady wOk c = ([], .error "not connected") ∧
      SendActionResult wOk c id su rm = ([], .error "not connected") ∧
      ForceActions wOk c q (n :: ns) opts =
        ([], .error "not connected") ∧
      (RegisterActions wOk c (g :: hs)).2.1 = [] ∧
      (RegisterActions wOk c (g :: hs)).2.2 = .error "not connected") ∧
    (c.connected = true →
      (send wOk c msg).1 = [{ msg with game := c.game }] ∧
      (SendContext wOk c m sil).1 ≠ [] ∧
      (Startup wOk c).1 ≠ [] ∧
      (SendShutdownReady wOk c).1 ≠ [] ∧
      (SendActionResult wOk c id su rm).1 ≠ [] ∧
      (ForceActions wOk c q (n :: ns) opts).1 ≠ [] ∧
      (RegisterActions wOk c (g :: hs)).2.1 ≠ []) := by
  have hreg := registerActions_ok wOk c (g :: hs) hgn (List.cons_ne_nil g hs)
  constructor
  · intro hcn
    have hsend : ∀ msg2 : Message,
        send wOk c msg2 = ([], .error "not connected") := by
      intro msg2; unfold send; rw [hcn]; rfl
    refine ⟨hsend msg, hsend _, hsend _, hsend _, hsend _, ?_, ?_, ?_⟩
    · unfold ForceActions
      simp only [List.isEmpty_cons, if_false, Bool.false_eq_true]
      exact hsend _
    · rw [hreg, send_writes]
      simp [hcn]
    · rw [hreg]
      show (send wOk _ _).2 = _
      unfold send
      simp [hcn]
  · intro hcn
    have hsend : ∀ msg2 : Message, (send wOk c msg2).1 ≠ [] := by
      intro msg2; rw [send_writes, hcn]; simp
    refine ⟨by rw [send_writes, hcn]; rfl, hsend _, hsend _, hsend _,
      hsend _, ?_, ?_⟩
    · unfold ForceActions
      simp only [List.isEmpty_cons, if_false, Bool.false_eq_true]
      exact hsend _
    · rw [hreg, send_writes]
      simp [hcn]

/-- C3, witness for the amended statement: on the closed-but-previously-
connected client, a context send still produces a write attempt, stamped
with the configured game. -/
theorem c3_sends_after_close_amended_witness :
    (SendContext wAll (Close true clientT).1 "m" false).1 ≠ [] ∧
    (send wAll (Close true clientT).1
      { command := "context", game := "stale", data := none }).1 =
      [{ command := "context", game := "T", data := none }] := by
  have h := c3_sends_after_close_amended wAll (Close true clientT).1
    { command := "context", game := "stale", data := none } "m" false
    "i" "r" true "q" "n" [] [] namedA []
    (fun x hx => by
      rcases List.mem_cons.mp hx with rfl | hx'
      · decide
      · exact absurd hx' (List.not_mem_nil x))
    rfl
  exact ⟨(h.2 rfl).2.1, (h.2 rfl).1⟩

/-- C4, counterexample: `Register` sets the registered flag before
calling `RegisterActions`, so when the inner call fails (here: client
not connected, so the `actions/register` send fails) the error is
propagated but the window still ends up in the Registered state — the
claim's "the window does not end up in the Registered state" is false at
this input. -/
theorem c4_counterexample :
    (ActionWindow.Register wAll windowUnconnected).2.2.2 =
      .error "failed to register actions: not connected" ∧
    (ActionWindow.Register wAll windowUnconnected).1.registered = true := by
  exact ⟨rfl, rfl⟩

/-- C4 (amended): `ActionWindow.Register` fails with the state error if
the window is already registered and with the validation error if its
handler list is empty; when the inner `RegisterActions` call fails it
propagates that error wrapped as "failed to register actions: …" and
schedules no force announcement, but the registered flag has already been
set — the window does end up in the Registered state (the Building →
Registered transition is not rolled back). -/
theorem c4_register_window_amended {σ : Type} (wOk : Message → Bool)
    (w : ActionWindow σ) :
    (w.registered = true →
      ActionWindow.Register wOk w =
        (w, [], none, .error "window already registered")) ∧
    (w.registered = false → w.actions = [] →
      ActionWindow.Register wOk w =
        (w, [], none, .error "no actions in window")) ∧
    (∀ (c' : Client σ) (ws : List Message) (e : String),
      w.registered = false → w.actions ≠ [] →
      RegisterActions wOk w.client w.actions = (c', ws, .error e) →
      ActionWindow.Register wOk w =
        ({ w with registered := true, client := c' }, ws, none,
          .error ("failed to register actions: " ++ e))) := by
  refine ⟨?_, ?_, ?_⟩
  · intro h
    unfold ActionWindow.Register
    rw [h]
    rfl
  · intro h1 h2
    unfold ActionWindow.Register
    rw [h1, h2]
    rfl
  · intro c' ws e h1 h2 hreg
    have hne : w.actions.isEmpty = false := by
      cases hw : w.actions with
      | nil => exact absurd hw h2
      | cons x xs => rfl
    unfold ActionWindow.Register
    rw [h1, hne, hreg]
    rfl

/-- C4, witness for the amended statement: the building window over the
unconnected client propagates the wrapped send error and comes back
marked registered. -/
theorem c4_register_window_amended_witness :
    ActionWindow.Register wAll windowUnconnected =
      ({ windowUnconnected with
          registered := true
          client := (RegisterActions wAll clientUnconnected [namedA]).1 },
        [], none, .error ("failed to register actions: " ++ "not connected")) := by
  have h := c4_register_window_amended wAll windowUnconnected
  exact h.2.2 (RegisterActions wAll clientUnconnected [namedA]).1 []
    "not connected" rfl (List.cons_ne_nil _ _) rfl

end Neuro
